import Mathlib

/-!
Shallow embedding of the key-value store engine
(`kv_store.py`, class `KeyValueStore`).

Python dictionaries are modelled as association lists with the usual
dict operations (first-match lookup, in-place overwrite on set, removal
of the binding on delete); a list representing a real Python dict has
no duplicate keys, captured by the predicate `WF`.  JSON values are
modelled by the inductive `JVal` together with the serializer `dumps`
mirroring `json.dumps` with its default separators.  Wall-clock time
(`time.time()`) is a `Nat` parameter `now` passed to each operation;
`ttl=None` is `Option.none` and Python truthiness of `ttl` (`if ttl:`)
is `ttl.getD 0 ≠ 0`.  Each operation returns the Python result
(`Except PyErr α`, an exception or a value) together with the state
after the call, since in Python the mutations performed before an
exception persist.  The backing file's contents are the `file` field;
`save_store` overwrites it with the serialized current mappings and
`os.path.getsize` is the length of that serialization.
-/

namespace KV

/-- JSON documents, the value type of the store. -/
inductive JVal where
  | null : JVal
  | bool : Bool → JVal
  | num : Int → JVal
  | str : String → JVal
  | arr : List JVal → JVal
  | obj : List (String × JVal) → JVal
deriving Repr

mutual

/-- `json.dumps` with the default separators. -/
def dumps : JVal → String
  | .null => "null"
  | .bool true => "true"
  | .bool false => "false"
  | .num n => toString n
  | .str s => "\"" ++ s ++ "\""
  | .arr xs => "[" ++ dumpsArr xs ++ "]"
  | .obj fs => "\x7b" ++ dumpsObj fs ++ "\x7d"

/-- Serialize the elements of a JSON array, comma separated. -/
def dumpsArr : List JVal → String
  | [] => ""
  | [x] => dumps x
  | x :: y :: xs => dumps x ++ ", " ++ dumpsArr (y :: xs)

/-- Serialize the fields of a JSON object, comma separated. -/
def dumpsObj : List (String × JVal) → String
  | [] => ""
  | [(k, v)] => "\"" ++ k ++ "\": " ++ dumps v
  | (k, v) :: f :: fs => "\"" ++ k ++ "\": " ++ dumps v ++ ", " ++ dumpsObj (f :: fs)

end

/-- Python-dict lookup `d[k]` / `k in d`: the first binding of `k`. -/
def dictGet {α : Type} (d : List (String × α)) (k : String) : Option α :=
  match d with
  | [] => none
  | (k', v) :: rest => if k' = k then some v else dictGet rest k

/-- Python-dict assignment `d[k] = v`: overwrite in place or append. -/
def dictSet {α : Type} (d : List (String × α)) (k : String) (v : α) :
    List (String × α) :=
  match d with
  | [] => [(k, v)]
  | (k', v') :: rest => if k' = k then (k, v) :: rest else (k', v') :: dictSet rest k v

/-- Python-dict deletion `del d[k]`: drop the first binding of `k`. -/
def dictDel {α : Type} (d : List (String × α)) (k : String) :
    List (String × α) :=
  match d with
  | [] => []
  | (k', v') :: rest => if k' = k then rest else (k', v') :: dictDel rest k

/-- Contents of the backing JSON file: the persisted snapshot of the
two mappings (`json.dump({'store': ..., 'ttl_store': ...}, file)`). -/
structure FileData where
  store : List (String × JVal)
  ttl_store : List (String × Nat)
deriving Repr

/-- The serialized form of the backing file, as written by
`json.dump`; its length models `os.path.getsize(file_path)`. -/
def dumpsFile (f : FileData) : String :=
  dumps (.obj [("store", .obj f.store),
               ("ttl_store", .obj (f.ttl_store.map (fun p => (p.1, .num (Int.ofNat p.2)))))])

/-- The engine state: the two in-memory mappings, the backing file's
current contents and the configured `max_file_size`. -/
structure KVState where
  store : List (String × JVal)
  ttl_store : List (String × Nat)
  file : FileData
  max_file_size : Nat
deriving Repr

/-- The exceptions the engine raises. -/
inductive PyErr where
  | ValueError : String → PyErr
  | KeyError : String → PyErr
  | MemoryError : String → PyErr
deriving Repr, DecidableEq

/-- A well-formed state: the association lists stand for Python dicts,
whose keys are unique. -/
def WF (s : KVState) : Prop :=
  (s.store.map Prod.fst).Nodup ∧ (s.ttl_store.map Prod.fst).Nodup

instance (s : KVState) : Decidable (WF s) := by unfold WF; infer_instance

/-- `KeyValueStore._save_store`: overwrite the backing file with the
serialization of the current mappings. -/
def save_store (s : KVState) : KVState :=
  { s with file := ⟨s.store, s.ttl_store⟩ }

/-- `KeyValueStore._check_file_size`: after a save, fail if the file
exceeds `max_file_size` bytes. -/
def check_file_size (s : KVState) : Except PyErr Unit :=
  if (dumpsFile s.file).length > s.max_file_size then
    .error (.MemoryError "File size exceeds the 1GB limit.")
  else .ok ()

/-- `KeyValueStore._is_key_expired`: a key is expired when it has a
TTL entry whose expiry instant is strictly in the past. -/
def is_key_expired (s : KVState) (now : Nat) (key : String) : Bool :=
  match dictGet s.ttl_store key with
  | some e => now > e
  | none => false

/-- `KeyValueStore._clean_expired_keys`: collect the expired keys of
`ttl_store`, delete each from both mappings, then save. -/
def clean_expired_keys (s : KVState) (now : Nat) : KVState :=
  let expired := (s.ttl_store.map Prod.fst).filter (fun k => is_key_expired s now k)
  save_store { s with
    store := expired.foldl (fun d k => dictDel d k) s.store,
    ttl_store := expired.foldl (fun d k => dictDel d k) s.ttl_store }

/-- `KeyValueStore.create`: validate the key length and the serialized
value size, sweep, reject duplicates, insert (recording `now + ttl`
when `ttl` is truthy), save, then check the file size. -/
def create (s : KVState) (key : String) (value : JVal) (ttl : Option Nat)
    (now : Nat) : Except PyErr Unit × KVState :=
  if key.length > 32 then
    (.error (.ValueError "Key length exceeds 32 characters."), s)
  else if (dumps value).length > 16 * 1024 then
    (.error (.ValueError "Value exceeds 16KB size limit."), s)
  else
    let s1 := clean_expired_keys s now
    if (dictGet s1.store key).isSome then
      (.error (.KeyError ("Key " ++ key ++ " already exists. Use a unique key or delete the existing one.")), s1)
    else
      let s2 := { s1 with store := dictSet s1.store key value }
      let s3 := if ttl.getD 0 ≠ 0 then
          { s2 with ttl_store := dictSet s2.ttl_store key (now + ttl.getD 0) }
        else s2
      let s4 := save_store s3
      (check_file_size s4, s4)

/-- `KeyValueStore.read`: sweep, then return the value or raise. -/
def read (s : KVState) (key : String) (now : Nat) : Except PyErr JVal × KVState :=
  let s1 := clean_expired_keys s now
  match dictGet s1.store key with
  | none => (.error (.KeyError ("Key " ++ key ++ " not found or has expired.")), s1)
  | some v => (.ok v, s1)

/-- `KeyValueStore.delete`: sweep, then remove the key from both
mappings and save, or raise if absent. -/
def delete (s : KVState) (key : String) (now : Nat) : Except PyErr Unit × KVState :=
  let s1 := clean_expired_keys s now
  if (dictGet s1.store key).isSome then
    let s2 := { s1 with store := dictDel s1.store key }
    let s3 := if (dictGet s2.ttl_store key).isSome then
        { s2 with ttl_store := dictDel s2.ttl_store key }
      else s2
    (.ok (), save_store s3)
  else
    (.error (.KeyError ("Key " ++ key ++ " not found.")), s1)

/-- The body of `batch_create`'s per-item loop: validate, reject a
duplicate, insert, record the TTL when truthy. -/
def itemStep (s : KVState) (key : String) (value : JVal) (ttl : Option Nat)
    (now : Nat) : Except PyErr KVState :=
  if key.length > 32 then
    .error (.ValueError ("Key " ++ key ++ " exceeds 32 characters."))
  else if (dumps value).length > 16 * 1024 then
    .error (.ValueError ("Value for key " ++ key ++ " exceeds 16KB."))
  else if (dictGet s.store key).isSome then
    .error (.KeyError ("Key " ++ key ++ " already exists. Use a unique key or delete the existing one."))
  else
    let s2 := { s with store := dictSet s.store key value }
    .ok (if ttl.getD 0 ≠ 0 then
        { s2 with ttl_store := dictSet s2.ttl_store key (now + ttl.getD 0) }
      else s2)

/-- `batch_create`'s loop over `items.items()`, in insertion order; on
an exception the mutations already applied are kept. -/
def batchItems (s : KVState) (items : List (String × JVal)) (ttl : Option Nat)
    (now : Nat) : Except PyErr Unit × KVState :=
  match items with
  | [] => (.ok (), s)
  | (key, value) :: rest =>
    match itemStep s key value ttl now with
    | .error e => (.error e, s)
    | .ok s' => batchItems s' rest ttl now

/-- `KeyValueStore.batch_create`: reject a batch of more than 100
items, sweep once, apply the items in order, then save and check the
file size. -/
def batch_create (s : KVState) (items : List (String × JVal)) (ttl : Option Nat)
    (now : Nat) : Except PyErr Unit × KVState :=
  if items.length > 100 then
    (.error (.ValueError "Batch size exceeds limit of 100 items."), s)
  else
    let s1 := clean_expired_keys s now
    match batchItems s1 items ttl now with
    | (.error e, s2) => (.error e, s2)
    | (.ok _, s2) =>
      let s3 := save_store s2
      (check_file_size s3, s3)

/-- `KeyValueStore._load_store` on an existing backing file: parse it
back into the two mappings. -/
def load_store (f : FileData) (max_file_size : Nat) : KVState :=
  ⟨f.store, f.ttl_store, f, max_file_size⟩

/-- The state of a freshly constructed engine whose backing file did
not exist: empty mappings, immediately persisted. -/
def initialState (max_file_size : Nat) : KVState :=
  ⟨[], [], ⟨[], []⟩, max_file_size⟩

/-- No stale keys: at instant `now`, no key of the state is expired. -/
def NoStale (s : KVState) (now : Nat) : Prop :=
  ∀ k, is_key_expired s now k = false

/-- The spec's §3 invariant: every key of the expiry mapping also
exists in the value mapping. -/
def TTLSub (s : KVState) : Prop :=
  ∀ k, (dictGet s.ttl_store k).isSome → (dictGet s.store k).isSome

/-- All keys present in the value mapping have length at most 32. -/
def KeysLe32 (s : KVState) : Prop :=
  ∀ k, (dictGet s.store k).isSome → k.length ≤ 32

/-! ### Association-list (Python dict) lemmas -/

theorem dictGet_dictSet_self {α : Type} (d : List (String × α)) (k : String) (v : α) :
    dictGet (dictSet d k v) k = some v := by
  induction d with
  | nil => simp [dictSet, dictGet]
  | cons p rest ih =>
    obtain ⟨k', v'⟩ := p
    by_cases h : k' = k
    · simp [dictSet, h, dictGet]
    · simp [dictSet, h, dictGet, ih]

theorem dictGet_dictSet_ne {α : Type} (d : List (String × α)) (k k' : String) (v : α)
    (h : k ≠ k') : dictGet (dictSet d k v) k' = dictGet d k' := by
  induction d with
  | nil => simp [dictSet, dictGet, h]
  | cons p rest ih =>
    obtain ⟨a, b⟩ := p
    by_cases ha : a = k
    · subst ha; simp [dictSet, dictGet, h]
    · simp [dictSet, ha, dictGet, ih]

theorem dictGet_dictDel_ne {α : Type} (d : List (String × α)) (k k' : String)
    (h : k ≠ k') : dictGet (dictDel d k) k' = dictGet d k' := by
  induction d with
  | nil => simp [dictDel]
  | cons p rest ih =>
    obtain ⟨a, b⟩ := p
    by_cases ha : a = k
    · subst ha; simp [dictDel, dictGet, h]
    · simp [dictDel, ha, dictGet, ih]

theorem dictGet_eq_none_iff {α : Type} (d : List (String × α)) (k : String) :
    dictGet d k = none ↔ k ∉ d.map Prod.fst := by
  induction d with
  | nil => simp [dictGet]
  | cons p rest ih =>
    obtain ⟨a, b⟩ := p
    by_cases ha : a = k
    · subst ha; simp [dictGet]
    · simp [dictGet, ha, ih, Ne.symm ha]

theorem mem_of_dictGet_eq_some {α : Type} {d : List (String × α)} {k : String} {v : α}
    (h : dictGet d k = some v) : k ∈ d.map Prod.fst := by
  by_contra hmem
  rw [← dictGet_eq_none_iff] at hmem
  rw [h] at hmem
  exact Option.noConfusion hmem

theorem dictGet_dictDel_self {α : Type} (d : List (String × α)) (k : String)
    (h : (d.map Prod.fst).Nodup) : dictGet (dictDel d k) k = none := by
  induction d with
  | nil => simp [dictDel, dictGet]
  | cons p rest ih =>
    obtain ⟨a, b⟩ := p
    simp only [List.map_cons, List.nodup_cons] at h
    by_cases ha : a = k
    · subst ha
      simp only [dictDel, if_pos rfl]
      exact (dictGet_eq_none_iff rest a).2 h.1
    · simp [dictDel, ha, dictGet, ih h.2]

theorem keys_dictDel_sublist {α : Type} (d : List (String × α)) (k : String) :
    ((dictDel d k).map Prod.fst).Sublist (d.map Prod.fst) := by
  induction d with
  | nil => simp [dictDel]
  | cons p rest ih =>
    obtain ⟨a, b⟩ := p
    by_cases ha : a = k
    · simp only [dictDel, if_pos ha, List.map_cons]
      exact (List.Sublist.refl _).cons a
    · simp only [dictDel, if_neg ha, List.map_cons]
      exact ih.cons₂ a

theorem nodup_keys_dictDel {α : Type} {d : List (String × α)} (k : String)
    (h : (d.map Prod.fst).Nodup) : ((dictDel d k).map Prod.fst).Nodup :=
  h.sublist (keys_dictDel_sublist d k)

theorem dictGet_none_dictDel {α : Type} {d : List (String × α)} {k' : String} (k : String)
    (h : dictGet d k' = none) : dictGet (dictDel d k) k' = none := by
  rw [dictGet_eq_none_iff] at h ⊢
  exact fun hmem => h ((keys_dictDel_sublist d k).mem hmem)

theorem mem_keys_dictSet {α : Type} {d : List (String × α)} {k a : String} {v : α}
    (h : a ∈ (dictSet d k v).map Prod.fst) : a ∈ d.map Prod.fst ∨ a = k := by
  induction d with
  | nil =>
    simp only [dictSet, List.map_cons, List.map_nil, List.mem_singleton] at h
    exact Or.inr h
  | cons p rest ih =>
    obtain ⟨b, c⟩ := p
    by_cases hb : b = k
    · subst hb
      rw [show dictSet ((b, c) :: rest) b v = (b, v) :: rest from by
        simp [dictSet]] at h
      simp only [List.map_cons, List.mem_cons] at h
      rcases h with h | h
      · exact Or.inr h
      · exact Or.inl (List.mem_cons.2 (Or.inr h))
    · rw [show dictSet ((b, c) :: rest) k v = (b, c) :: dictSet rest k v from by
        simp [dictSet, hb]] at h
      simp only [List.map_cons, List.mem_cons] at h ⊢
      rcases h with h | h
      · exact Or.inl (Or.inl h)
      · rcases ih h with h' | h'
        · exact Or.inl (Or.inr h')
        · exact Or.inr h'

theorem nodup_keys_dictSet {α : Type} {d : List (String × α)} (k : String) (v : α)
    (h : (d.map Prod.fst).Nodup) : ((dictSet d k v).map Prod.fst).Nodup := by
  induction d with
  | nil => simp [dictSet]
  | cons p rest ih =>
    obtain ⟨a, b⟩ := p
    simp only [List.map_cons, List.nodup_cons] at h
    by_cases ha : a = k
    · subst ha
      rw [show dictSet ((a, b) :: rest) a v = (a, v) :: rest from by simp [dictSet]]
      simp only [List.map_cons, List.nodup_cons]
      exact ⟨h.1, h.2⟩
    · rw [show dictSet ((a, b) :: rest) k v = (a, b) :: dictSet rest k v from by
        simp [dictSet, ha]]
      simp only [List.map_cons, List.nodup_cons]
      refine ⟨fun hmem => ?_, ih h.2⟩
      rcases mem_keys_dictSet hmem with h' | h'
      · exact h.1 h'
      · exact ha h'

theorem foldl_dictDel_not_mem {α : Type} (ks : List String) (d : List (String × α))
    (k : String) (h : k ∉ ks) :
    dictGet (ks.foldl (fun d' k' => dictDel d' k') d) k = dictGet d k := by
  induction ks generalizing d with
  | nil => rfl
  | cons a ks ih =>
    simp only [List.mem_cons, not_or] at h
    simp only [List.foldl_cons]
    rw [ih (dictDel d a) h.2, dictGet_dictDel_ne d a k (fun e => h.1 e.symm)]

theorem foldl_dictDel_none {α : Type} (ks : List String) (d : List (String × α))
    (k : String) (h : dictGet d k = none) :
    dictGet (ks.foldl (fun d' k' => dictDel d' k') d) k = none := by
  induction ks generalizing d with
  | nil => exact h
  | cons a ks ih => exact ih (dictDel d a) (dictGet_none_dictDel a h)

theorem nodup_foldl_dictDel {α : Type} (ks : List String) (d : List (String × α))
    (h : (d.map Prod.fst).Nodup) :
    (((ks.foldl (fun d' k' => dictDel d' k') d)).map Prod.fst).Nodup := by
  induction ks generalizing d with
  | nil => exact h
  | cons a ks ih => exact ih (dictDel d a) (nodup_keys_dictDel a h)

theorem foldl_dictDel_mem {α : Type} (ks : List String) (d : List (String × α))
    (k : String) (hd : (d.map Prod.fst).Nodup) (h : k ∈ ks) :
    dictGet (ks.foldl (fun d' k' => dictDel d' k') d) k = none := by
  induction ks generalizing d with
  | nil => cases h
  | cons a ks ih =>
    simp only [List.foldl_cons]
    by_cases hak : a = k
    · subst hak
      exact foldl_dictDel_none ks (dictDel d a) a (dictGet_dictDel_self d a hd)
    · rcases List.mem_cons.1 h with h' | h'
      · exact absurd h'.symm hak
      · exact ih (dictDel d a) (nodup_keys_dictDel a hd) h'

/-! ### Sweep (`_clean_expired_keys`) lemmas -/

theorem clean_store_eq (s : KVState) (now : Nat) :
    (clean_expired_keys s now).store =
      ((s.ttl_store.map Prod.fst).filter (fun k => is_key_expired s now k)).foldl
        (fun d k => dictDel d k) s.store := rfl

theorem clean_ttl_eq (s : KVState) (now : Nat) :
    (clean_expired_keys s now).ttl_store =
      ((s.ttl_store.map Prod.fst).filter (fun k => is_key_expired s now k)).foldl
        (fun d k => dictDel d k) s.ttl_store := rfl

theorem clean_file_eq (s : KVState) (now : Nat) :
    (clean_expired_keys s now).file =
      ⟨(clean_expired_keys s now).store, (clean_expired_keys s now).ttl_store⟩ := rfl

theorem clean_max_eq (s : KVState) (now : Nat) :
    (clean_expired_keys s now).max_file_size = s.max_file_size := rfl

theorem is_key_expired_congr {s s' : KVState} (h : s.ttl_store = s'.ttl_store)
    (now : Nat) (k : String) : is_key_expired s now k = is_key_expired s' now k := by
  unfold is_key_expired
  rw [h]

/-- A key that is not currently expired keeps both its bindings across
the sweep. -/
theorem dictGet_clean_of_not_expired {s : KVState} {now : Nat} {k : String}
    (h : is_key_expired s now k = false) :
    dictGet (clean_expired_keys s now).store k = dictGet s.store k ∧
    dictGet (clean_expired_keys s now).ttl_store k = dictGet s.ttl_store k := by
  have hmem : k ∉ (s.ttl_store.map Prod.fst).filter (fun k => is_key_expired s now k) := by
    intro hk
    have := (List.mem_filter.1 hk).2
    rw [h] at this
    cases this
  exact ⟨by rw [clean_store_eq]; exact foldl_dictDel_not_mem _ _ _ hmem,
         by rw [clean_ttl_eq]; exact foldl_dictDel_not_mem _ _ _ hmem⟩

/-- After a sweep of a well-formed state, no key is expired any more. -/
theorem noStale_clean (s : KVState) (now : Nat)
    (h : (s.ttl_store.map Prod.fst).Nodup) : NoStale (clean_expired_keys s now) now := by
  intro k
  unfold is_key_expired
  rw [clean_ttl_eq]
  cases hk : dictGet s.ttl_store k with
  | none => rw [foldl_dictDel_none _ _ _ hk]
  | some e =>
    by_cases he : now > e
    · have hmem : k ∈ (s.ttl_store.map Prod.fst).filter (fun k => is_key_expired s now k) :=
        List.mem_filter.2 ⟨mem_of_dictGet_eq_some hk, by simp [is_key_expired, hk, he]⟩
      rw [foldl_dictDel_mem _ _ _ h hmem]
    · have hmem : k ∉ (s.ttl_store.map Prod.fst).filter (fun k => is_key_expired s now k) := by
        intro hmem
        have := (List.mem_filter.1 hmem).2
        simp [is_key_expired, hk, he] at this
      rw [foldl_dictDel_not_mem _ _ _ hmem, hk]
      simpa using he

/-- On a state with no stale keys the sweep removes nothing: it only
rewrites the backing file. -/
theorem clean_eq_save_of_noStale {s : KVState} {now : Nat} (h : NoStale s now) :
    clean_expired_keys s now = save_store s := by
  have hfilter : (s.ttl_store.map Prod.fst).filter (fun k => is_key_expired s now k) = [] :=
    List.filter_eq_nil_iff.2 (fun a _ => by rw [h a]; exact Bool.false_ne_true)
  unfold clean_expired_keys
  rw [hfilter]
  rfl

theorem WF_clean {s : KVState} (now : Nat) (h : WF s) : WF (clean_expired_keys s now) := by
  refine ⟨?_, ?_⟩
  · rw [clean_store_eq]; exact nodup_foldl_dictDel _ _ h.1
  · rw [clean_ttl_eq]; exact nodup_foldl_dictDel _ _ h.2

theorem WF_save {s : KVState} (h : WF s) : WF (save_store s) := h

/-! ### Operation-shape lemmas -/

theorem create_eq_invalid_key (s : KVState) (key : String) (value : JVal)
    (ttl : Option Nat) (now : Nat) (hk : key.length > 32) :
    create s key value ttl now =
      (.error (.ValueError "Key length exceeds 32 characters."), s) := by
  simp [create, hk]

theorem create_eq_invalid_value (s : KVState) (key : String) (value : JVal)
    (ttl : Option Nat) (now : Nat) (hk : ¬ key.length > 32)
    (hv : (dumps value).length > 16 * 1024) :
    create s key value ttl now =
      (.error (.ValueError "Value exceeds 16KB size limit."), s) := by
  simp [create, hk, hv]

theorem create_eq_dup (s : KVState) (key : String) (value : JVal)
    (ttl : Option Nat) (now : Nat) (hk : ¬ key.length > 32)
    (hv : ¬ (dumps value).length > 16 * 1024)
    (hdup : (dictGet (clean_expired_keys s now).store key).isSome = true) :
    create s key value ttl now =
      (.error (.KeyError ("Key " ++ key ++ " already exists. Use a unique key or delete the existing one.")),
       clean_expired_keys s now) := by
  simp [create, hk, hv, hdup]

theorem create_eq_valid_falsy (s : KVState) (key : String) (value : JVal)
    (ttl : Option Nat) (now : Nat) (ht : ttl.getD 0 = 0)
    (hk : ¬ key.length > 32) (hv : ¬ (dumps value).length > 16 * 1024)
    (hdup : ¬ (dictGet (clean_expired_keys s now).store key).isSome = true) :
    create s key value ttl now =
      (check_file_size (save_store { clean_expired_keys s now with
          store := dictSet (clean_expired_keys s now).store key value }),
       save_store { clean_expired_keys s now with
          store := dictSet (clean_expired_keys s now).store key value }) := by
  simp [create, hk, hv, hdup, ht]

theorem create_eq_valid_truthy (s : KVState) (key : String) (value : JVal)
    (ttl : Option Nat) (now : Nat) (ht : ttl.getD 0 ≠ 0)
    (hk : ¬ key.length > 32) (hv : ¬ (dumps value).length > 16 * 1024)
    (hdup : ¬ (dictGet (clean_expired_keys s now).store key).isSome = true) :
    create s key value ttl now =
      (check_file_size (save_store { clean_expired_keys s now with
          store := dictSet (clean_expired_keys s now).store key value,
          ttl_store := dictSet (clean_expired_keys s now).ttl_store key
            (now + ttl.getD 0) }),
       save_store { clean_expired_keys s now with
          store := dictSet (clean_expired_keys s now).store key value,
          ttl_store := dictSet (clean_expired_keys s now).ttl_store key
            (now + ttl.getD 0) }) := by
  simp [create, hk, hv, hdup, ht]

theorem read_state_eq (s : KVState) (key : String) (now : Nat) :
    (read s key now).2 = clean_expired_keys s now := by
  unfold read
  cases hget : dictGet (clean_expired_keys s now).store key <;> simp [hget]

theorem read_ok_of_get {s : KVState} {key : String} {now : Nat} {v : JVal}
    (hget : dictGet (clean_expired_keys s now).store key = some v) :
    (read s key now).1 = .ok v := by
  unfold read
  simp [hget]

theorem read_err_of_get {s : KVState} {key : String} {now : Nat}
    (hget : dictGet (clean_expired_keys s now).store key = none) :
    (read s key now).1 =
      .error (.KeyError ("Key " ++ key ++ " not found or has expired.")) := by
  unfold read
  simp [hget]

/-! ### C1 -/

/-- C1: for every key of length at most 32 and every value serializing
to at most 16 KiB, a successful `create(k, v)` followed immediately by
`read(k)` returns `v`.  `WF s` says the two mappings are honest Python
dicts (no duplicate keys). -/
theorem c1_create_then_read (s : KVState) (key : String) (value : JVal) (now : Nat)
    (hWF : WF s) (hk : key.length ≤ 32) (hv : (dumps value).length ≤ 16 * 1024)
    (hok : (create s key value none now).1 = .ok ()) :
    (read (create s key value none now).2 key now).1 = .ok value := by
  have hk32 : ¬ key.length > 32 := by omega
  have hv16 : ¬ (dumps value).length > 16 * 1024 := by omega
  by_cases hdup : (dictGet (clean_expired_keys s now).store key).isSome = true
  · rw [create_eq_dup s key value none now hk32 hv16 hdup] at hok
    cases hok
  · rw [create_eq_valid_falsy s key value none now rfl hk32 hv16 hdup]
    have hstale : NoStale (save_store { clean_expired_keys s now with
        store := dictSet (clean_expired_keys s now).store key value }) now := by
      intro k
      exact noStale_clean s now hWF.2 k
    apply read_ok_of_get
    rw [clean_eq_save_of_noStale hstale]
    exact dictGet_dictSet_self _ key value

/-- Witness for C1 at a concrete input. -/
theorem c1_witness :
    (read (create (initialState 1000000000) "key1" (JVal.str "Ram") none 7).2 "key1" 7).1 =
      .ok (JVal.str "Ram") :=
  c1_create_then_read (initialState 1000000000) "key1" (JVal.str "Ram") 7
    (by decide) (by decide) (by decide) (by rfl)

/-! ### C2 -/

/-- C2: persisting a state and constructing a new engine against the
resulting backing file reconstructs identical in-memory mappings, and
every non-expired key of the original state reads back its value on
the reloaded engine. -/
theorem c2_restart_roundtrip (s : KVState) (m now : Nat) :
    (load_store (save_store s).file m).store = s.store ∧
    (load_store (save_store s).file m).ttl_store = s.ttl_store ∧
    ∀ k v, dictGet s.store k = some v → is_key_expired s now k = false →
      (read (load_store (save_store s).file m) k now).1 = .ok v := by
  refine ⟨rfl, rfl, fun k v hget hexp => ?_⟩
  apply read_ok_of_get
  rw [(@dictGet_clean_of_not_expired (load_store (save_store s).file m) now k hexp).1]
  exact hget

/-- A sample state for the restart round-trip: two keys, one with a
TTL expiring at instant 100. -/
def stateC2 : KVState :=
  ⟨[("a", .str "x"), ("b", .num 2)], [("b", 100)], ⟨[], []⟩, 1000⟩

/-- Witness for C2 at a concrete input. -/
theorem c2_witness :
    (load_store (save_store stateC2).file 1000).store = stateC2.store ∧
    (load_store (save_store stateC2).file 1000).ttl_store = stateC2.ttl_store ∧
    (read (load_store (save_store stateC2).file 1000) "b" 50).1 = .ok (.num 2) :=
  ⟨(c2_restart_roundtrip stateC2 1000 50).1,
   (c2_restart_roundtrip stateC2 1000 50).2.1,
   (c2_restart_roundtrip stateC2 1000 50).2.2 "b" (.num 2) (by rfl) (by rfl)⟩

/-! ### C3 -/

/-- C3 counterexample: `create` with `ttl = 0` records no expiry at
all (Python's `if ttl:` treats 0 as absent), and a later `read` still
succeeds, contrary to the claim that `expiry = now + ttl` is recorded
and `read` fails once `now ≥ expiry`; moreover with a nonzero ttl the
entry is not yet expired at the instant `now = expiry` (the code uses
a strict comparison), so `read` at exactly the expiry instant also
succeeds. -/
theorem c3_counterexample :
    (create (initialState 1000000000) "k" JVal.null (some 0) 5).1 = .ok () ∧
    (create (initialState 1000000000) "k" JVal.null (some 0) 5).2.ttl_store = [] ∧
    (read (create (initialState 1000000000) "k" JVal.null (some 0) 5).2 "k" 6).1 =
      .ok JVal.null ∧
    (create (initialState 1000000000) "k" JVal.null (some 10) 0).2.ttl_store = [("k", 10)] ∧
    (read (create (initialState 1000000000) "k" JVal.null (some 10) 0).2 "k" 10).1 =
      .ok JVal.null :=
  ⟨rfl, rfl, rfl, rfl, rfl⟩

/-- Reading a key just inserted with expiry instant `now + t`:
before or at the expiry instant the value comes back, strictly after
it the key is swept and `read` raises `KeyError`. -/
theorem read_after_insert (s4 s1 : KVState) (key : String) (value : JVal) (now t : Nat)
    (hstore : s4.store = dictSet s1.store key value)
    (httl : s4.ttl_store = dictSet s1.ttl_store key (now + t))
    (hnd : (s4.store.map Prod.fst).Nodup) :
    (∀ now', now' ≤ now + t → (read s4 key now').1 = .ok value) ∧
    (∀ now', now' > now + t → (read s4 key now').1 =
      .error (.KeyError ("Key " ++ key ++ " not found or has expired."))) := by
  constructor
  · intro now' hle
    have hexp : is_key_expired s4 now' key = false := by
      unfold is_key_expired
      rw [httl, dictGet_dictSet_self]
      simp only [decide_eq_false_iff_not]
      omega
    apply read_ok_of_get
    rw [(dictGet_clean_of_not_expired hexp).1, hstore]
    exact dictGet_dictSet_self _ _ _
  · intro now' hgt
    have hexp : is_key_expired s4 now' key = true := by
      unfold is_key_expired
      rw [httl, dictGet_dictSet_self]
      simpa using hgt
    have hmem : key ∈ (s4.ttl_store.map Prod.fst).filter
        (fun k => is_key_expired s4 now' k) :=
      List.mem_filter.2
        ⟨mem_of_dictGet_eq_some (by rw [httl]; exact dictGet_dictSet_self _ _ _), hexp⟩
    apply read_err_of_get
    rw [clean_store_eq]
    exact foldl_dictDel_mem _ _ _ hnd hmem

/-- C3 amended: when a nonzero `ttl` is given, a successful `create`
records `expiry = now + ttl`; with `ttl = 0` (or absent) nothing is
recorded, as the counterexample shows.  The entry is treated as
expired only at instants strictly past the expiry, so `read` returns
the value up to and including `now + ttl` and fails with `KeyError`
strictly after it. -/
theorem c3_amended_ttl_semantics (s : KVState) (key : String) (value : JVal)
    (t now : Nat) (hWF : WF s) (ht : t ≠ 0)
    (hok : (create s key value (some t) now).1 = .ok ()) :
    dictGet (create s key value (some t) now).2.ttl_store key = some (now + t) ∧
    (∀ now', now' ≤ now + t →
      (read (create s key value (some t) now).2 key now').1 = .ok value) ∧
    (∀ now', now' > now + t →
      (read (create s key value (some t) now).2 key now').1 =
        .error (.KeyError ("Key " ++ key ++ " not found or has expired."))) := by
  by_cases hk32 : key.length > 32
  · rw [create_eq_invalid_key _ _ _ _ _ hk32] at hok; cases hok
  by_cases hv16 : (dumps value).length > 16 * 1024
  · rw [create_eq_invalid_value _ _ _ _ _ hk32 hv16] at hok; cases hok
  by_cases hdup : (dictGet (clean_expired_keys s now).store key).isSome = true
  · rw [create_eq_dup _ _ _ _ _ hk32 hv16 hdup] at hok; cases hok
  rw [create_eq_valid_truthy s key value (some t) now ht hk32 hv16 hdup]
  have hnd : (((save_store { clean_expired_keys s now with
      store := dictSet (clean_expired_keys s now).store key value,
      ttl_store := dictSet (clean_expired_keys s now).ttl_store key
        (now + (some t).getD 0) }).store.map Prod.fst)).Nodup :=
    nodup_keys_dictSet key value (WF_clean now hWF).1
  have h := read_after_insert _ (clean_expired_keys s now) key value now t rfl rfl hnd
  exact ⟨dictGet_dictSet_self _ _ _, h.1, h.2⟩

/-- Witness for the amended C3 at a concrete input. -/
theorem c3_witness :
    dictGet (create (initialState 1000000000) "k" JVal.null (some 7) 0).2.ttl_store "k" =
      some 7 ∧
    (read (create (initialState 1000000000) "k" JVal.null (some 7) 0).2 "k" 3).1 =
      .ok JVal.null ∧
    (read (create (initialState 1000000000) "k" JVal.null (some 7) 0).2 "k" 8).1 =
      .error (.KeyError "Key k not found or has expired.") := by
  have h := c3_amended_ttl_semantics (initialState 1000000000) "k" JVal.null 7 0
    (by decide) (by decide) (by rfl)
  exact ⟨h.1, h.2.1 3 (by decide), h.2.2 8 (by decide)⟩

/-! ### More operation-shape lemmas: `delete` and `batch_create` -/

theorem delete_eq_absent (s : KVState) (key : String) (now : Nat)
    (h : ¬ (dictGet (clean_expired_keys s now).store key).isSome = true) :
    delete s key now =
      (.error (.KeyError ("Key " ++ key ++ " not found.")), clean_expired_keys s now) := by
  simp [delete, h]

theorem delete_eq_present_ttl (s : KVState) (key : String) (now : Nat)
    (h : (dictGet (clean_expired_keys s now).store key).isSome = true)
    (h2 : (dictGet (clean_expired_keys s now).ttl_store key).isSome = true) :
    delete s key now =
      (.ok (), save_store { clean_expired_keys s now with
        store := dictDel (clean_expired_keys s now).store key,
        ttl_store := dictDel (clean_expired_keys s now).ttl_store key }) := by
  simp [delete, h, h2]

theorem delete_eq_present_nottl (s : KVState) (key : String) (now : Nat)
    (h : (dictGet (clean_expired_keys s now).store key).isSome = true)
    (h2 : ¬ (dictGet (clean_expired_keys s now).ttl_store key).isSome = true) :
    delete s key now =
      (.ok (), save_store { clean_expired_keys s now with
        store := dictDel (clean_expired_keys s now).store key }) := by
  simp [delete, h, h2]

theorem batch_create_eq_large (s : KVState) (items : List (String × JVal))
    (ttl : Option Nat) (now : Nat) (h : items.length > 100) :
    batch_create s items ttl now =
      (.error (.ValueError "Batch size exceeds limit of 100 items."), s) := by
  simp [batch_create, h]

theorem batch_create_eq_items_err (s : KVState) (items : List (String × JVal))
    (ttl : Option Nat) (now : Nat) (e : PyErr) (s2 : KVState)
    (h : ¬ items.length > 100)
    (hb : batchItems (clean_expired_keys s now) items ttl now = (.error e, s2)) :
    batch_create s items ttl now = (.error e, s2) := by
  simp [batch_create, h, hb]

theorem batch_create_eq_items_ok (s : KVState) (items : List (String × JVal))
    (ttl : Option Nat) (now : Nat) (r : Unit) (s2 : KVState)
    (h : ¬ items.length > 100)
    (hb : batchItems (clean_expired_keys s now) items ttl now = (.ok r, s2)) :
    batch_create s items ttl now = (check_file_size (save_store s2), save_store s2) := by
  simp [batch_create, h, hb]

/-- What a successful per-item step of `batch_create` does to the
state, and what must have held for it to succeed. -/
theorem itemStep_ok_shape {s : KVState} {key : String} {value : JVal}
    {ttl : Option Nat} {now : Nat} {s' : KVState}
    (h : itemStep s key value ttl now = .ok s') :
    s'.store = dictSet s.store key value ∧
    ((ttl.getD 0 = 0 ∧ s'.ttl_store = s.ttl_store) ∨
     (ttl.getD 0 ≠ 0 ∧ s'.ttl_store = dictSet s.ttl_store key (now + ttl.getD 0))) ∧
    s'.file = s.file ∧ s'.max_file_size = s.max_file_size ∧
    dictGet s.store key = none ∧ key.length ≤ 32 ∧
    (dumps value).length ≤ 16 * 1024 := by
  by_cases hk : key.length > 32
  · simp [itemStep, hk] at h
  by_cases hv : (dumps value).length > 16 * 1024
  · simp [itemStep, hk, hv] at h
  by_cases hdup : (dictGet s.store key).isSome = true
  · simp [itemStep, hk, hv, hdup] at h
  have hnone : dictGet s.store key = none := by
    cases hg : dictGet s.store key with
    | none => rfl
    | some v => rw [hg] at hdup; simp at hdup
  by_cases ht : ttl.getD 0 = 0
  · simp only [itemStep, if_neg hk, if_neg hv] at h
    rw [if_neg hdup] at h
    rw [if_neg (by simp [ht])] at h
    cases h
    exact ⟨rfl, Or.inl ⟨ht, rfl⟩, rfl, rfl, hnone, by omega, by omega⟩
  · simp only [itemStep, if_neg hk, if_neg hv] at h
    rw [if_neg hdup] at h
    rw [if_pos ht] at h
    cases h
    exact ⟨rfl, Or.inr ⟨ht, rfl⟩, rfl, rfl, hnone, by omega, by omega⟩

/-- An `itemStep` failure leaves all the validation knowledge but no
state change; the error is never a `MemoryError`. -/
theorem itemStep_no_memoryError {s : KVState} {key : String} {value : JVal}
    {ttl : Option Nat} {now : Nat} {m : String} :
    itemStep s key value ttl now ≠ .error (.MemoryError m) := by
  intro h
  by_cases hk : key.length > 32
  · simp [itemStep, hk] at h
  by_cases hv : (dumps value).length > 16 * 1024
  · simp [itemStep, hk, hv] at h
  by_cases hdup : (dictGet s.store key).isSome = true
  · simp [itemStep, hk, hv, hdup] at h
  · simp only [itemStep, if_neg hk, if_neg hv] at h
    rw [if_neg hdup] at h
    by_cases ht : ttl.getD 0 ≠ 0 <;> simp [ht] at h

/-! ### `NoStale` preservation -/

theorem noStale_of_ttl_eq {s s' : KVState} {now : Nat}
    (h : s'.ttl_store = s.ttl_store) (hs : NoStale s now) : NoStale s' now := by
  intro k
  have := hs k
  unfold is_key_expired at this ⊢
  rw [h]
  exact this

theorem noStale_ttl_dictDel {s' s1 : KVState} {now : Nat} {key : String}
    (h : s'.ttl_store = dictDel s1.ttl_store key)
    (hnd : (s1.ttl_store.map Prod.fst).Nodup) (hs : NoStale s1 now) :
    NoStale s' now := by
  intro k
  unfold is_key_expired
  rw [h]
  by_cases hk : key = k
  · subst hk
    rw [dictGet_dictDel_self _ _ hnd]
  · rw [dictGet_dictDel_ne _ _ _ hk]
    have := hs k
    unfold is_key_expired at this
    exact this

theorem noStale_insert_future {s4 s1 : KVState} {now : Nat} {key : String} {e : Nat}
    (h : s4.ttl_store = dictSet s1.ttl_store key (now + e)) (hs : NoStale s1 now) :
    NoStale s4 now := by
  intro k
  unfold is_key_expired
  rw [h]
  by_cases hk : key = k
  · subst hk
    rw [dictGet_dictSet_self]
    simp only [decide_eq_false_iff_not]
    omega
  · rw [dictGet_dictSet_ne _ _ _ _ hk]
    have := hs k
    unfold is_key_expired at this
    exact this

/-- The per-item loop of `batch_create` never makes a key stale. -/
theorem batchItems_noStale {items : List (String × JVal)} {s : KVState}
    {ttl : Option Nat} {now : Nat} {r : Except PyErr Unit} {s2 : KVState}
    (h : batchItems s items ttl now = (r, s2)) (hs : NoStale s now) :
    NoStale s2 now := by
  induction items generalizing s r with
  | nil =>
    unfold batchItems at h
    cases h
    exact hs
  | cons p rest ih =>
    obtain ⟨key, value⟩ := p
    unfold batchItems at h
    cases hstep : itemStep s key value ttl now with
    | error e =>
      rw [hstep] at h
      cases h
      exact hs
    | ok s' =>
      rw [hstep] at h
      have hshape := itemStep_ok_shape hstep
      rcases hshape.2.1 with ⟨_, httl⟩ | ⟨_, httl⟩
      · exact ih h (noStale_of_ttl_eq httl hs)
      · exact ih h (noStale_insert_future httl hs)

/-! ### C4 -/

/-- A state holding one entry whose TTL expired at instant 1; its
backing file agrees with memory. -/
def stateC4 : KVState :=
  ⟨[("old", .num 1)], [("old", 1)], ⟨[("old", .num 1)], [("old", 1)]⟩, 1000000000⟩

/-- A 33-character key, rejected by the length validation. -/
def key33 : String := "aaaaaaaaaaaaaaaaaaaaaaaaaaaaaaaaa"

/-- C4 counterexample: at instant 5 the key `old` of `stateC4` is
expired, yet a `create` whose key fails validation (33 characters) and
a `batch_create` of 101 items return with the state — including the
expired entry — completely untouched: the sweep did not run, contrary
to the claim that every public operation sweeps before any other
logic. -/
theorem c4_counterexample :
    is_key_expired stateC4 5 "old" = true ∧
    (create stateC4 key33 JVal.null none 5).1 =
      .error (.ValueError "Key length exceeds 32 characters.") ∧
    (create stateC4 key33 JVal.null none 5).2 = stateC4 ∧
    (batch_create stateC4 (List.replicate 101 ("b", JVal.null)) none 5).1 =
      .error (.ValueError "Batch size exceeds limit of 100 items.") ∧
    (batch_create stateC4 (List.replicate 101 ("b", JVal.null)) none 5).2 = stateC4 :=
  ⟨rfl, rfl, rfl, rfl, rfl⟩

/-- C4 amended: `read` and `delete` do sweep unconditionally at the
start, and all operations sweep before their membership logic; but
`create` validates its key and value and `batch_create` checks its
batch size *before* the sweep, so a call failing those validations
returns with the state (stale entries included) untouched.  Once past
validation, every operation's resulting state has no stale key left at
the call's instant. -/
theorem c4_amended_sweep_placement :
    (∀ s key value ttl now, key.length > 32 ∨ (dumps value).length > 16 * 1024 →
      (create s key value ttl now).2 = s) ∧
    (∀ s items ttl now, items.length > 100 → (batch_create s items ttl now).2 = s) ∧
    (∀ s key now, WF s → NoStale (read s key now).2 now) ∧
    (∀ s key now, WF s → NoStale (delete s key now).2 now) ∧
    (∀ s key value ttl now, WF s → ¬ key.length > 32 →
      ¬ (dumps value).length > 16 * 1024 → NoStale (create s key value ttl now).2 now) ∧
    (∀ s items ttl now, WF s → ¬ items.length > 100 →
      NoStale (batch_create s items ttl now).2 now) := by
  refine ⟨?_, ?_, ?_, ?_, ?_, ?_⟩
  · intro s key value ttl now h
    by_cases hk : key.length > 32
    · rw [create_eq_invalid_key _ _ _ _ _ hk]
    · rw [create_eq_invalid_value _ _ _ _ _ hk (h.resolve_left hk)]
  · intro s items ttl now h
    rw [batch_create_eq_large _ _ _ _ h]
  · intro s key now hWF
    rw [read_state_eq]
    exact noStale_clean s now hWF.2
  · intro s key now hWF
    by_cases hmem : (dictGet (clean_expired_keys s now).store key).isSome = true
    · by_cases h2 : (dictGet (clean_expired_keys s now).ttl_store key).isSome = true
      · rw [delete_eq_present_ttl _ _ _ hmem h2]
        exact @noStale_ttl_dictDel _ (clean_expired_keys s now) now key rfl
          (WF_clean now hWF).2 (noStale_clean s now hWF.2)
      · rw [delete_eq_present_nottl _ _ _ hmem h2]
        exact @noStale_of_ttl_eq (clean_expired_keys s now) _ now rfl
          (noStale_clean s now hWF.2)
    · rw [delete_eq_absent _ _ _ hmem]
      exact noStale_clean s now hWF.2
  · intro s key value ttl now hWF hk hv
    by_cases hdup : (dictGet (clean_expired_keys s now).store key).isSome = true
    · rw [create_eq_dup _ _ _ _ _ hk hv hdup]
      exact noStale_clean s now hWF.2
    · by_cases ht : ttl.getD 0 = 0
      · rw [create_eq_valid_falsy _ _ _ _ _ ht hk hv hdup]
        exact @noStale_of_ttl_eq (clean_expired_keys s now) _ now rfl
          (noStale_clean s now hWF.2)
      · rw [create_eq_valid_truthy _ _ _ _ _ ht hk hv hdup]
        exact @noStale_insert_future _ (clean_expired_keys s now) now key (ttl.getD 0)
          rfl (noStale_clean s now hWF.2)
  · intro s items ttl now hWF hlen
    cases hb : batchItems (clean_expired_keys s now) items ttl now with
    | mk r s2 =>
      cases r with
      | error e =>
        rw [batch_create_eq_items_err _ _ _ _ _ _ hlen hb]
        exact batchItems_noStale hb (noStale_clean s now hWF.2)
      | ok u =>
        rw [batch_create_eq_items_ok _ _ _ _ _ _ hlen hb]
        exact @noStale_of_ttl_eq s2 _ now rfl
          (batchItems_noStale hb (noStale_clean s now hWF.2))

/-- Witness for the amended C4 at concrete inputs. -/
theorem c4_witness :
    (create stateC4 key33 JVal.null none 5).2 = stateC4 ∧
    (batch_create stateC4 (List.replicate 101 ("b", JVal.null)) none 5).2 = stateC4 ∧
    NoStale (read stateC4 "old" 5).2 5 ∧
    NoStale (delete stateC4 "old" 5).2 5 ∧
    NoStale (create stateC4 "new" JVal.null none 5).2 5 ∧
    NoStale (batch_create stateC4 [("new", JVal.null)] none 5).2 5 :=
  ⟨c4_amended_sweep_placement.1 stateC4 key33 JVal.null none 5 (Or.inl (by decide)),
   c4_amended_sweep_placement.2.1 stateC4 (List.replicate 101 ("b", JVal.null)) none 5
     (by decide),
   c4_amended_sweep_placement.2.2.1 stateC4 "old" 5 (by decide),
   c4_amended_sweep_placement.2.2.2.1 stateC4 "old" 5 (by decide),
   c4_amended_sweep_placement.2.2.2.2.1 stateC4 "new" JVal.null none 5 (by decide)
     (by decide) (by decide),
   c4_amended_sweep_placement.2.2.2.2.2 stateC4 [("new", JVal.null)] none 5 (by decide)
     (by decide)⟩

/-! ### C5 -/

theorem isSome_dictSet_of_isSome {α : Type} {d : List (String × α)} {k key : String}
    {v : α} (h : (dictGet d k).isSome = true) :
    (dictGet (dictSet d key v) k).isSome = true := by
  by_cases hk : key = k
  · subst hk
    rw [dictGet_dictSet_self]
    rfl
  · rw [dictGet_dictSet_ne _ _ _ _ hk]
    exact h

theorem TTLSub_clean {s : KVState} (now : Nat) (hWF : WF s) (h : TTLSub s) :
    TTLSub (clean_expired_keys s now) := by
  intro k hk
  by_cases hmem : k ∈ (s.ttl_store.map Prod.fst).filter (fun k => is_key_expired s now k)
  · rw [clean_ttl_eq, foldl_dictDel_mem _ _ _ hWF.2 hmem] at hk
    cases hk
  · rw [clean_ttl_eq, foldl_dictDel_not_mem _ _ _ hmem] at hk
    rw [clean_store_eq, foldl_dictDel_not_mem _ _ _ hmem]
    exact h k hk

theorem TTLSub_insert {s1 s4 : KVState} {key : String} {value : JVal} {x : Nat}
    (hstore : s4.store = dictSet s1.store key value)
    (httl : s4.ttl_store = s1.ttl_store ∨ s4.ttl_store = dictSet s1.ttl_store key x)
    (h : TTLSub s1) : TTLSub s4 := by
  intro k hk
  rw [hstore]
  rcases httl with httl | httl
  · rw [httl] at hk
    exact isSome_dictSet_of_isSome (h k hk)
  · rw [httl] at hk
    by_cases hkey : key = k
    · subst hkey
      rw [dictGet_dictSet_self]
      rfl
    · rw [dictGet_dictSet_ne _ _ _ _ hkey] at hk
      exact isSome_dictSet_of_isSome (h k hk)

theorem TTLSub_batchItems {items : List (String × JVal)} {s : KVState}
    {ttl : Option Nat} {now : Nat} {r : Except PyErr Unit} {s2 : KVState}
    (h : batchItems s items ttl now = (r, s2)) (ht : TTLSub s) : TTLSub s2 := by
  induction items generalizing s r with
  | nil =>
    unfold batchItems at h
    cases h
    exact ht
  | cons p rest ih =>
    obtain ⟨key, value⟩ := p
    unfold batchItems at h
    cases hstep : itemStep s key value ttl now with
    | error e =>
      rw [hstep] at h
      cases h
      exact ht
    | ok s' =>
      rw [hstep] at h
      have hshape := itemStep_ok_shape hstep
      rcases hshape.2.1 with ⟨_, httl⟩ | ⟨_, httl⟩
      · exact ih h (@TTLSub_insert s s' key value 0 hshape.1 (Or.inl httl) ht)
      · exact ih h (@TTLSub_insert s s' key value (now + ttl.getD 0) hshape.1
          (Or.inr httl) ht)

/-- C5: every public operation — succeeding or failing — preserves the
invariant that each key of the expiry mapping also exists in the value
mapping. -/
theorem c5_ttl_subset_invariant :
    (∀ s key value ttl now, WF s → TTLSub s → TTLSub (create s key value ttl now).2) ∧
    (∀ s key now, WF s → TTLSub s → TTLSub (read s key now).2) ∧
    (∀ s key now, WF s → TTLSub s → TTLSub (delete s key now).2) ∧
    (∀ s items ttl now, WF s → TTLSub s → TTLSub (batch_create s items ttl now).2) := by
  refine ⟨?_, ?_, ?_, ?_⟩
  · intro s key value ttl now hWF ht
    by_cases hk : key.length > 32
    · rw [create_eq_invalid_key _ _ _ _ _ hk]; exact ht
    by_cases hv : (dumps value).length > 16 * 1024
    · rw [create_eq_invalid_value _ _ _ _ _ hk hv]; exact ht
    by_cases hdup : (dictGet (clean_expired_keys s now).store key).isSome = true
    · rw [create_eq_dup _ _ _ _ _ hk hv hdup]
      exact TTLSub_clean now hWF ht
    by_cases httl : ttl.getD 0 = 0
    · rw [create_eq_valid_falsy _ _ _ _ _ httl hk hv hdup]
      exact @TTLSub_insert (clean_expired_keys s now) _ key value 0 rfl (Or.inl rfl)
        (TTLSub_clean now hWF ht)
    · rw [create_eq_valid_truthy _ _ _ _ _ httl hk hv hdup]
      exact @TTLSub_insert (clean_expired_keys s now) _ key value (now + ttl.getD 0)
        rfl (Or.inr rfl) (TTLSub_clean now hWF ht)
  · intro s key now hWF ht
    rw [read_state_eq]
    exact TTLSub_clean now hWF ht
  · intro s key now hWF ht
    by_cases hmem : (dictGet (clean_expired_keys s now).store key).isSome = true
    · by_cases h2 : (dictGet (clean_expired_keys s now).ttl_store key).isSome = true
      · rw [delete_eq_present_ttl _ _ _ hmem h2]
        intro k hk
        have hne : ¬ key = k := by
          intro he
          subst he
          rw [show (save_store { clean_expired_keys s now with
              store := dictDel (clean_expired_keys s now).store key,
              ttl_store := dictDel (clean_expired_keys s now).ttl_store key }).ttl_store =
            dictDel (clean_expired_keys s now).ttl_store key from rfl] at hk
          rw [dictGet_dictDel_self _ _ (WF_clean now hWF).2] at hk
          cases hk
        rw [show (save_store { clean_expired_keys s now with
            store := dictDel (clean_expired_keys s now).store key,
            ttl_store := dictDel (clean_expired_keys s now).ttl_store key }).ttl_store =
          dictDel (clean_expired_keys s now).ttl_store key from rfl,
          dictGet_dictDel_ne _ _ _ hne] at hk
        rw [show (save_store { clean_expired_keys s now with
            store := dictDel (clean_expired_keys s now).store key,
            ttl_store := dictDel (clean_expired_keys s now).ttl_store key }).store =
          dictDel (clean_expired_keys s now).store key from rfl,
          dictGet_dictDel_ne _ _ _ hne]
        exact TTLSub_clean now hWF ht k hk
      · rw [delete_eq_present_nottl _ _ _ hmem h2]
        intro k hk
        have hne : ¬ key = k := by
          intro he
          subst he
          rw [show (save_store { clean_expired_keys s now with
              store := dictDel (clean_expired_keys s now).store key }).ttl_store =
            (clean_expired_keys s now).ttl_store from rfl] at hk
          rw [hk] at h2
          exact h2 rfl
        rw [show (save_store { clean_expired_keys s now with
            store := dictDel (clean_expired_keys s now).store key }).store =
          dictDel (clean_expired_keys s now).store key from rfl,
          dictGet_dictDel_ne _ _ _ hne]
        exact TTLSub_clean now hWF ht k hk
    · rw [delete_eq_absent _ _ _ hmem]
      exact TTLSub_clean now hWF ht
  · intro s items ttl now hWF ht
    by_cases hlen : items.length > 100
    · rw [batch_create_eq_large _ _ _ _ hlen]; exact ht
    cases hb : batchItems (clean_expired_keys s now) items ttl now with
    | mk r s2 =>
      cases r with
      | error e =>
        rw [batch_create_eq_items_err _ _ _ _ _ _ hlen hb]
        exact TTLSub_batchItems hb (TTLSub_clean now hWF ht)
      | ok u =>
        rw [batch_create_eq_items_ok _ _ _ _ _ _ hlen hb]
        have := TTLSub_batchItems hb (TTLSub_clean now hWF ht)
        exact this

/-- Witness for C5 at concrete inputs. -/
theorem c5_witness :
    TTLSub (create stateC2 "c" (JVal.num 3) (some 9) 50).2 ∧
    TTLSub (read stateC2 "a" 50).2 ∧
    TTLSub (delete stateC2 "b" 50).2 ∧
    TTLSub (batch_create stateC2 [("d", JVal.null)] none 50).2 := by
  have hWF : WF stateC2 := by decide
  have ht : TTLSub stateC2 := by
    intro k hk
    by_cases h : "b" = k
    · subst h; decide
    · simp [stateC2, dictGet, h] at hk
  exact ⟨c5_ttl_subset_invariant.1 stateC2 "c" (JVal.num 3) (some 9) 50 hWF ht,
         c5_ttl_subset_invariant.2.1 stateC2 "a" 50 hWF ht,
         c5_ttl_subset_invariant.2.2.1 stateC2 "b" 50 hWF ht,
         c5_ttl_subset_invariant.2.2.2 stateC2 [("d", JVal.null)] none 50 hWF ht⟩

/-! ### C6 -/

/-- C6 counterexample: the empty key (length 0, outside the claimed
1–32 range) is accepted by `create` and inserted into the store; only
the upper bound is enforced. -/
theorem c6_counterexample :
    ("" : String).length = 0 ∧
    (create (initialState 1000000000) "" JVal.null none 0).1 = .ok () ∧
    dictGet (create (initialState 1000000000) "" JVal.null none 0).2.store "" =
      some JVal.null :=
  ⟨rfl, rfl, rfl⟩

theorem isSome_of_foldl_dictDel {α : Type} {ks : List String} {d : List (String × α)}
    {k : String}
    (h : (dictGet (ks.foldl (fun d' k' => dictDel d' k') d) k).isSome = true) :
    (dictGet d k).isSome = true := by
  cases hg : dictGet d k with
  | none => rw [foldl_dictDel_none _ _ _ hg] at h; cases h
  | some v => rfl

theorem isSome_of_dictDel {α : Type} {d : List (String × α)} {k key : String}
    (h : (dictGet (dictDel d key) k).isSome = true) :
    (dictGet d k).isSome = true := by
  cases hg : dictGet d k with
  | none => rw [dictGet_none_dictDel key hg] at h; cases h
  | some v => rfl

theorem KeysLe32_clean {s : KVState} (now : Nat) (h : KeysLe32 s) :
    KeysLe32 (clean_expired_keys s now) := by
  intro k hk
  rw [clean_store_eq] at hk
  exact h k (isSome_of_foldl_dictDel hk)

theorem KeysLe32_insert {s1 s4 : KVState} {key : String} {value : JVal}
    (hstore : s4.store = dictSet s1.store key value) (hlen : key.length ≤ 32)
    (h : KeysLe32 s1) : KeysLe32 s4 := by
  intro k hk
  rw [hstore] at hk
  by_cases hkey : key = k
  · subst hkey; exact hlen
  · rw [dictGet_dictSet_ne _ _ _ _ hkey] at hk
    exact h k hk

theorem KeysLe32_batchItems {items : List (String × JVal)} {s : KVState}
    {ttl : Option Nat} {now : Nat} {r : Except PyErr Unit} {s2 : KVState}
    (h : batchItems s items ttl now = (r, s2)) (hs : KeysLe32 s) : KeysLe32 s2 := by
  induction items generalizing s r with
  | nil =>
    unfold batchItems at h
    cases h
    exact hs
  | cons p rest ih =>
    obtain ⟨key, value⟩ := p
    unfold batchItems at h
    cases hstep : itemStep s key value ttl now with
    | error e =>
      rw [hstep] at h
      cases h
      exact hs
    | ok s' =>
      rw [hstep] at h
      have hshape := itemStep_ok_shape hstep
      exact ih h (KeysLe32_insert hshape.1 hshape.2.2.2.2.2.1 hs)

/-- C6 amended: `create` and the per-item loop of `batch_create`
reject any key longer than 32 characters with `ValueError`, and every
public operation preserves the invariant that all stored keys have
length at most 32.  There is no lower bound: as the counterexample
shows, the empty key is accepted. -/
theorem c6_amended_key_length :
    (∀ s key value ttl now, key.length > 32 → (create s key value ttl now).1 =
      .error (.ValueError "Key length exceeds 32 characters.")) ∧
    (∀ s key value ttl now, key.length > 32 → itemStep s key value ttl now =
      .error (.ValueError ("Key " ++ key ++ " exceeds 32 characters."))) ∧
    (∀ s key value ttl now, KeysLe32 s → KeysLe32 (create s key value ttl now).2) ∧
    (∀ s key now, KeysLe32 s → KeysLe32 (read s key now).2) ∧
    (∀ s key now, KeysLe32 s → KeysLe32 (delete s key now).2) ∧
    (∀ s items ttl now, KeysLe32 s → KeysLe32 (batch_create s items ttl now).2) := by
  refine ⟨?_, ?_, ?_, ?_, ?_, ?_⟩
  · intro s key value ttl now hk
    rw [create_eq_invalid_key _ _ _ _ _ hk]
  · intro s key value ttl now hk
    simp [itemStep, hk]
  · intro s key value ttl now hs
    by_cases hk : key.length > 32
    · rw [create_eq_invalid_key _ _ _ _ _ hk]; exact hs
    by_cases hv : (dumps value).length > 16 * 1024
    · rw [create_eq_invalid_value _ _ _ _ _ hk hv]; exact hs
    by_cases hdup : (dictGet (clean_expired_keys s now).store key).isSome = true
    · rw [create_eq_dup _ _ _ _ _ hk hv hdup]
      exact KeysLe32_clean now hs
    by_cases httl : ttl.getD 0 = 0
    · rw [create_eq_valid_falsy _ _ _ _ _ httl hk hv hdup]
      exact @KeysLe32_insert (clean_expired_keys s now) _ key value rfl (by omega)
        (KeysLe32_clean now hs)
    · rw [create_eq_valid_truthy _ _ _ _ _ httl hk hv hdup]
      exact @KeysLe32_insert (clean_expired_keys s now) _ key value rfl (by omega)
        (KeysLe32_clean now hs)
  · intro s key now hs
    rw [read_state_eq]
    exact KeysLe32_clean now hs
  · intro s key now hs
    by_cases hmem : (dictGet (clean_expired_keys s now).store key).isSome = true
    · by_cases h2 : (dictGet (clean_expired_keys s now).ttl_store key).isSome = true
      · rw [delete_eq_present_ttl _ _ _ hmem h2]
        intro k hk
        exact KeysLe32_clean now hs k (isSome_of_dictDel hk)
      · rw [delete_eq_present_nottl _ _ _ hmem h2]
        intro k hk
        exact KeysLe32_clean now hs k (isSome_of_dictDel hk)
    · rw [delete_eq_absent _ _ _ hmem]
      exact KeysLe32_clean now hs
  · intro s items ttl now hs
    by_cases hlen : items.length > 100
    · rw [batch_create_eq_large _ _ _ _ hlen]; exact hs
    cases hb : batchItems (clean_expired_keys s now) items ttl now with
    | mk r s2 =>
      cases r with
      | error e =>
        rw [batch_create_eq_items_err _ _ _ _ _ _ hlen hb]
        exact KeysLe32_batchItems hb (KeysLe32_clean now hs)
      | ok u =>
        rw [batch_create_eq_items_ok _ _ _ _ _ _ hlen hb]
        have := KeysLe32_batchItems hb (KeysLe32_clean now hs)
        exact this

/-- Witness for the amended C6 at concrete inputs. -/
theorem c6_witness :
    (create stateC2 key33 JVal.null none 50).1 =
      .error (.ValueError "Key length exceeds 32 characters.") ∧
    KeysLe32 (create stateC2 "c" JVal.null none 50).2 ∧
    KeysLe32 (delete stateC2 "b" 50).2 := by
  have hs : KeysLe32 stateC2 := by
    intro k hk
    by_cases h1 : "a" = k
    · subst h1; decide
    by_cases h2 : "b" = k
    · subst h2; decide
    simp [stateC2, dictGet, h1, h2] at hk
  exact ⟨c6_amended_key_length.1 stateC2 key33 JVal.null none 50 (by decide),
         c6_amended_key_length.2.2.1 stateC2 "c" JVal.null none 50 hs,
         c6_amended_key_length.2.2.2.2.1 stateC2 "b" 50 hs⟩

/-! ### C7 -/

/-- C7: `batch_create` with more than 100 items fails with
`ValueError` and mutates nothing — the resulting state, in-memory
mappings and backing file alike, is exactly the input state (the check
runs before the sweep, the loop and any save). -/
theorem c7_batch_too_large (s : KVState) (items : List (String × JVal))
    (ttl : Option Nat) (now : Nat) (h : items.length > 100) :
    batch_create s items ttl now =
      (.error (.ValueError "Batch size exceeds limit of 100 items."), s) :=
  batch_create_eq_large s items ttl now h

/-- Witness for C7 at a concrete input. -/
theorem c7_witness :
    batch_create (initialState 5) (List.replicate 101 ("a", JVal.null)) none 3 =
      (.error (.ValueError "Batch size exceeds limit of 100 items."), initialState 5) :=
  c7_batch_too_large (initialState 5) (List.replicate 101 ("a", JVal.null)) none 3
    (by decide)

/-! ### C8 -/

theorem batchItems_append_ok {s s' : KVState} {l1 l2 : List (String × JVal)}
    {ttl : Option Nat} {now : Nat}
    (h : batchItems s l1 ttl now = (.ok (), s')) :
    batchItems s (l1 ++ l2) ttl now = batchItems s' l2 ttl now := by
  induction l1 generalizing s with
  | nil =>
    unfold batchItems at h
    cases h
    rfl
  | cons p rest ih =>
    obtain ⟨key, value⟩ := p
    have hcons : ∀ (st : KVState) (l : List (String × JVal)),
        batchItems st ((key, value) :: l) ttl now =
          match itemStep st key value ttl now with
          | .error e => (.error e, st)
          | .ok s'' => batchItems s'' l ttl now := fun st l => rfl
    rw [hcons] at h
    rw [List.cons_append, hcons]
    cases hstep : itemStep s key value ttl now with
    | error e =>
      rw [hstep] at h
      cases h
    | ok s1 =>
      rw [hstep] at h
      exact ih h

/-- Bindings already present in the store survive the per-item loop:
each item only inserts a key that is currently absent. -/
theorem batchItems_binding_mono {items : List (String × JVal)} {s : KVState}
    {ttl : Option Nat} {now : Nat} {r : Except PyErr Unit} {s2 : KVState}
    {k : String} {v : JVal}
    (h : batchItems s items ttl now = (r, s2)) (hb : dictGet s.store k = some v) :
    dictGet s2.store k = some v := by
  induction items generalizing s r with
  | nil =>
    unfold batchItems at h
    cases h
    exact hb
  | cons p rest ih =>
    obtain ⟨key, value⟩ := p
    unfold batchItems at h
    cases hstep : itemStep s key value ttl now with
    | error e =>
      rw [hstep] at h
      cases h
      exact hb
    | ok s' =>
      rw [hstep] at h
      have hshape := itemStep_ok_shape hstep
      refine ih h ?_
      rw [hshape.1]
      have hne : key ≠ k := by
        intro he
        subst he
        rw [hshape.2.2.2.2.1] at hb
        cases hb
      rw [dictGet_dictSet_ne _ _ _ _ hne]
      exact hb

/-- After a successful run of the per-item loop every processed item
is applied: its key maps to its value in the resulting store. -/
theorem batchItems_ok_applied {items : List (String × JVal)} {s : KVState}
    {ttl : Option Nat} {now : Nat} {s2 : KVState}
    (h : batchItems s items ttl now = (.ok (), s2)) :
    ∀ p ∈ items, dictGet s2.store p.1 = some p.2 := by
  induction items generalizing s with
  | nil => intro p hp; cases hp
  | cons q rest ih =>
    obtain ⟨key, value⟩ := q
    unfold batchItems at h
    cases hstep : itemStep s key value ttl now with
    | error e =>
      rw [hstep] at h
      cases h
    | ok s' =>
      rw [hstep] at h
      intro p hp
      rcases List.mem_cons.1 hp with hp | hp
      · subst hp
        have hshape := itemStep_ok_shape hstep
        refine batchItems_binding_mono h ?_
        rw [hshape.1]
        exact dictGet_dictSet_self _ _ _
      · exact ih h p hp

/-- C8: when `batch_create` processes its items in order and the item
at position `n` is the first to fail (validation or duplicate check),
the whole batch aborts with that item's error while every entry
processed before it remains applied in the in-memory store. -/
theorem c8_batch_abort_keeps_applied (s : KVState) (items : List (String × JVal))
    (ttl : Option Nat) (now : Nat) (n : Nat) (sn : KVState) (e : PyErr)
    (hlen : ¬ items.length > 100) (hn : n < items.length)
    (hpre : batchItems (clean_expired_keys s now) (items.take n) ttl now = (.ok (), sn))
    (hfail : itemStep sn (items.get ⟨n, hn⟩).1 (items.get ⟨n, hn⟩).2 ttl now = .error e) :
    batch_create s items ttl now = (.error e, sn) ∧
    ∀ p ∈ items.take n, dictGet sn.store p.1 = some p.2 := by
  rcases hget : items.get ⟨n, hn⟩ with ⟨key, value⟩
  simp only [hget] at hfail
  have hsplit : items = items.take n ++ ((key, value) :: items.drop (n + 1)) := by
    conv_lhs => rw [← List.take_append_drop n items]
    rw [List.drop_eq_get_cons hn, hget]
  refine ⟨?_, batchItems_ok_applied hpre⟩
  apply batch_create_eq_items_err _ _ _ _ _ _ hlen
  conv_lhs => rw [hsplit]
  rw [batchItems_append_ok hpre]
  unfold batchItems
  rw [hfail]

/-- The failing three-item batch used as the C8 witness: the third
item repeats the first key. -/
def itemsC8 : List (String × JVal) :=
  [("a", .num 1), ("b", .num 2), ("a", .num 3)]

/-- The state reached after the first two items of `itemsC8`. -/
def stateC8 : KVState :=
  (batchItems (clean_expired_keys (initialState 1000000000) 0) (itemsC8.take 2) none 0).2

/-- Witness for C8 at a concrete input. -/
theorem c8_witness :
    batch_create (initialState 1000000000) itemsC8 none 0 =
      (.error (.KeyError "Key a already exists. Use a unique key or delete the existing one."),
       stateC8) ∧
    ∀ p ∈ itemsC8.take 2, dictGet stateC8.store p.1 = some p.2 :=
  c8_batch_abort_keeps_applied (initialState 1000000000) itemsC8 none 0 2 stateC8
    (.KeyError "Key a already exists. Use a unique key or delete the existing one.")
    (by decide) (by decide) (by rfl) (by rfl)

/-! ### C9 -/

/-- The per-item loop can fail only with `ValueError` or `KeyError`,
never with the size check's `MemoryError`. -/
theorem batchItems_no_memoryError {items : List (String × JVal)} {s : KVState}
    {ttl : Option Nat} {now : Nat} {m : String} {s2 : KVState}
    (h : batchItems s items ttl now = (.error (.MemoryError m), s2)) : False := by
  induction items generalizing s with
  | nil =>
    unfold batchItems at h
    cases h
  | cons p rest ih =>
    obtain ⟨key, value⟩ := p
    unfold batchItems at h
    cases hstep : itemStep s key value ttl now with
    | error e =>
      rw [hstep] at h
      have he : e = .MemoryError m := by
        have := congrArg Prod.fst h
        simpa using this
      subst he
      exact itemStep_no_memoryError hstep
    | ok s' =>
      rw [hstep] at h
      exact ih h

/-- C9: when the post-save size check of `create` or `batch_create`
fails with `MemoryError` (`CapacityExceeded`), the newly inserted data
is already present in the in-memory store, and the backing file holds
exactly the serialized current mappings — the write is not rolled
back. -/
theorem c9_size_check_after_persist :
    (∀ s key value ttl now m s2,
      create s key value ttl now = (.error (.MemoryError m), s2) →
      dictGet s2.store key = some value ∧
      s2.file = ⟨s2.store, s2.ttl_store⟩) ∧
    (∀ s items ttl now m s2,
      batch_create s items ttl now = (.error (.MemoryError m), s2) →
      (∀ p ∈ items, dictGet s2.store p.1 = some p.2) ∧
      s2.file = ⟨s2.store, s2.ttl_store⟩) := by
  constructor
  · intro s key value ttl now m s2 h
    by_cases hk : key.length > 32
    · rw [create_eq_invalid_key _ _ _ _ _ hk] at h
      have := congrArg Prod.fst h
      simp at this
    by_cases hv : (dumps value).length > 16 * 1024
    · rw [create_eq_invalid_value _ _ _ _ _ hk hv] at h
      have := congrArg Prod.fst h
      simp at this
    by_cases hdup : (dictGet (clean_expired_keys s now).store key).isSome = true
    · rw [create_eq_dup _ _ _ _ _ hk hv hdup] at h
      have := congrArg Prod.fst h
      simp at this
    by_cases httl : ttl.getD 0 = 0
    · rw [create_eq_valid_falsy _ _ _ _ _ httl hk hv hdup] at h
      have hs2 := (congrArg Prod.snd h).symm
      simp only at hs2
      subst hs2
      exact ⟨dictGet_dictSet_self _ _ _, rfl⟩
    · rw [create_eq_valid_truthy _ _ _ _ _ httl hk hv hdup] at h
      have hs2 := (congrArg Prod.snd h).symm
      simp only at hs2
      subst hs2
      exact ⟨dictGet_dictSet_self _ _ _, rfl⟩
  · intro s items ttl now m s2 h
    by_cases hlen : items.length > 100
    · rw [batch_create_eq_large _ _ _ _ hlen] at h
      have := congrArg Prod.fst h
      simp at this
    cases hb : batchItems (clean_expired_keys s now) items ttl now with
    | mk r s3 =>
      cases r with
      | error e =>
        rw [batch_create_eq_items_err _ _ _ _ _ _ hlen hb] at h
        have he : e = .MemoryError m := by
          have := congrArg Prod.fst h
          simpa using this
        subst he
        exact absurd hb batchItems_no_memoryError
      | ok u =>
        cases u
        rw [batch_create_eq_items_ok _ _ _ _ _ _ hlen hb] at h
        have hs2 := (congrArg Prod.snd h).symm
        simp only at hs2
        subst hs2
        refine ⟨fun p hp => ?_, rfl⟩
        exact batchItems_ok_applied hb p hp

/-- Witness for C9 at a concrete input: with `max_file_size = 0` every
save trips the size check, yet the key is stored and persisted. -/
theorem c9_witness :
    dictGet (create (initialState 0) "a" JVal.null none 0).2.store "a" =
      some JVal.null ∧
    (create (initialState 0) "a" JVal.null none 0).2.file =
      ⟨(create (initialState 0) "a" JVal.null none 0).2.store,
       (create (initialState 0) "a" JVal.null none 0).2.ttl_store⟩ :=
  c9_size_check_after_persist.1 (initialState 0) "a" JVal.null none 0
    "File size exceeds the 1GB limit."
    (create (initialState 0) "a" JVal.null none 0).2 (by rfl)

/-! ### C10 -/

/-- The per-item loop never touches the backing file. -/
theorem batchItems_file_eq {items : List (String × JVal)} {s : KVState}
    {ttl : Option Nat} {now : Nat} {r : Except PyErr Unit} {s2 : KVState}
    (h : batchItems s items ttl now = (r, s2)) : s2.file = s.file := by
  induction items generalizing s r with
  | nil =>
    unfold batchItems at h
    cases h
    rfl
  | cons p rest ih =>
    obtain ⟨key, value⟩ := p
    unfold batchItems at h
    cases hstep : itemStep s key value ttl now with
    | error e =>
      rw [hstep] at h
      cases h
      rfl
    | ok s' =>
      rw [hstep] at h
      rw [ih h]
      exact (itemStep_ok_shape hstep).2.2.1

theorem dictGet_none_of_dictSet_none {α : Type} {d : List (String × α)}
    {k key : String} {v : α}
    (h : dictGet (dictSet d key v) k = none) : dictGet d k = none := by
  by_cases hk : key = k
  · subst hk
    rw [dictGet_dictSet_self] at h
    cases h
  · rw [dictGet_dictSet_ne _ _ _ _ hk] at h
    exact h

/-- Every item accepted by a successful run of the per-item loop was
absent from the store the loop started from. -/
theorem batchItems_ok_fresh {items : List (String × JVal)} {s : KVState}
    {ttl : Option Nat} {now : Nat} {s2 : KVState}
    (h : batchItems s items ttl now = (.ok (), s2)) :
    ∀ p ∈ items, dictGet s.store p.1 = none := by
  induction items generalizing s with
  | nil => intro p hp; cases hp
  | cons q rest ih =>
    obtain ⟨key, value⟩ := q
    unfold batchItems at h
    cases hstep : itemStep s key value ttl now with
    | error e =>
      rw [hstep] at h
      cases h
    | ok s' =>
      rw [hstep] at h
      have hshape := itemStep_ok_shape hstep
      intro p hp
      rcases List.mem_cons.1 hp with hp | hp
      · subst hp
        exact hshape.2.2.2.2.1
      · have := ih h p hp
        rw [hshape.1] at this
        exact dictGet_none_of_dictSet_none this

/-- C10: when `batch_create` fails on its `n`-th item after applying
the earlier ones, the call performs no save after its initial sweep:
the backing file holds exactly the post-sweep pre-batch mappings,
while each earlier item is applied in memory but absent from the
persisted snapshot. -/
theorem c10_batch_failure_not_persisted (s : KVState) (items : List (String × JVal))
    (ttl : Option Nat) (now : Nat) (n : Nat) (sn : KVState) (e : PyErr)
    (hlen : ¬ items.length > 100) (hn : n < items.length)
    (hpre : batchItems (clean_expired_keys s now) (items.take n) ttl now = (.ok (), sn))
    (hfail : itemStep sn (items.get ⟨n, hn⟩).1 (items.get ⟨n, hn⟩).2 ttl now = .error e) :
    batch_create s items ttl now = (.error e, sn) ∧
    sn.file = (clean_expired_keys s now).file ∧
    (clean_expired_keys s now).file =
      ⟨(clean_expired_keys s now).store, (clean_expired_keys s now).ttl_store⟩ ∧
    ∀ p ∈ items.take n,
      dictGet sn.store p.1 = some p.2 ∧ dictGet sn.file.store p.1 = none := by
  rcases hget : items.get ⟨n, hn⟩ with ⟨key, value⟩
  simp only [hget] at hfail
  have hsplit : items = items.take n ++ ((key, value) :: items.drop (n + 1)) := by
    conv_lhs => rw [← List.take_append_drop n items]
    rw [List.drop_eq_get_cons hn, hget]
  have hfile : sn.file = (clean_expired_keys s now).file := batchItems_file_eq hpre
  refine ⟨?_, hfile, clean_file_eq s now, fun p hp => ?_⟩
  · apply batch_create_eq_items_err _ _ _ _ _ _ hlen
    conv_lhs => rw [hsplit]
    rw [batchItems_append_ok hpre]
    unfold batchItems
    rw [hfail]
  · refine ⟨batchItems_ok_applied hpre p hp, ?_⟩
    rw [hfile, clean_file_eq s now]
    exact batchItems_ok_fresh hpre p hp

/-- Witness for C10 at a concrete input. -/
theorem c10_witness :
    batch_create (initialState 1000000000) itemsC8 none 0 =
      (.error (.KeyError "Key a already exists. Use a unique key or delete the existing one."),
       stateC8) ∧
    stateC8.file = (clean_expired_keys (initialState 1000000000) 0).file ∧
    (clean_expired_keys (initialState 1000000000) 0).file =
      ⟨(clean_expired_keys (initialState 1000000000) 0).store,
       (clean_expired_keys (initialState 1000000000) 0).ttl_store⟩ ∧
    ∀ p ∈ itemsC8.take 2,
      dictGet stateC8.store p.1 = some p.2 ∧ dictGet stateC8.file.store p.1 = none :=
  c10_batch_failure_not_persisted (initialState 1000000000) itemsC8 none 0 2 stateC8
    (.KeyError "Key a already exists. Use a unique key or delete the existing one.")
    (by decide) (by decide) (by rfl) (by rfl)

end KV
